import Mathlib

/-!
# Verification of the IOS-Map tenant-mapping pipeline

Shallow embedding of the three Python scripts of the repository
(`dedupe_ios_csv.py`, `excel-to-map.py`, `clean_ios_csvs.py`) and proofs
about the behaviours its specification claims.

Modelling conventions:
* Python strings are modelled as Lean `String` / `List Char`; the character
  classes of the regexes (`\w`, `\s`) and of `str.lower` / `str.strip` are
  modelled over the ASCII range that the data of this program inhabits
  (Python's classes are additionally Unicode-aware; every concrete input
  appearing in a theorem below is ASCII, where the two notions agree).
* Floating-point coordinates carry no arithmetic in any claimed behaviour,
  so latitude/longitude are modelled by `Int`; a missing value is `none`.
* The pandas data frame of a script is modelled as a `List` of records with
  the fields the script reads, and the I/O layer (CSV parsing, file writes)
  is modelled by the pure values the script would write.
-/

namespace IOSMap

/-! ## Character classes (ASCII model of Python's `\w`, `\s`, `str.lower`) -/

/-- Python regex `\s` (and the `str.strip` / `str.split` whitespace set),
restricted to ASCII: space, tab, newline, carriage return, vertical tab,
form feed. -/
def isSpaceChar (c : Char) : Bool :=
  c = ' ' || c = '\t' || c = '\n' || c = '\r' || c = '\x0b' || c = '\x0c'

/-- Python regex `\w` restricted to ASCII: letters, digits and underscore. -/
def isWordChar (c : Char) : Bool :=
  c.isAlphanum || c = '_'

/-- `str.lower` on one character (ASCII model): `A`-`Z` maps to `a`-`z`,
everything else is unchanged. -/
def pyLowerChar (c : Char) : Char := c.toLower

/-! ## Python string primitives -/

/-- `str.strip()` on a character list: drop leading and trailing whitespace. -/
def pyStripL (l : List Char) : List Char :=
  ((l.dropWhile isSpaceChar).reverse.dropWhile isSpaceChar).reverse

/-- `str.strip()` on a string. -/
def pyStrip (s : String) : String := String.mk (pyStripL s.data)

/-- `re.sub(r"\s+", " ", s)` on a character list: every maximal run of
whitespace characters is replaced by a single space.  The single space of a
run is emitted at the run's last character. -/
def collapseAllWS : List Char → List Char
  | [] => []
  | [c] => if isSpaceChar c then [' '] else [c]
  | c :: d :: rest =>
    if isSpaceChar c then
      if isSpaceChar d then collapseAllWS (d :: rest)
      else ' ' :: collapseAllWS (d :: rest)
    else c :: collapseAllWS (d :: rest)

/-! ## `dedupe_ios_csv.normalize_text`

```python
def normalize_text(s: str) -> str:
    if s is None:
        return ""
    s = str(s).lower().strip()
    s = re.sub(r"[^\w\s]", "", s)   # remove punctuation
    s = re.sub(r"\s+", " ", s)      # collapse whitespace
    return s
```
The absent/null input is modelled by `Option.none`. -/
def normalize_text (s : Option String) : String :=
  match s with
  | none => ""
  | some s =>
    let l := pyStripL (s.data.map pyLowerChar)
    let l := l.filter (fun c => isWordChar c || isSpaceChar c)
    String.mk (collapseAllWS l)

/-! ## `dedupe_ios_csv.main`: deduplication -/

/-- One row of the deduplication input.  `rest` stands for the payload of
all the columns the dedupe key does not read (tenant, city, ...). -/
structure CsvRow where
  address : String
  state : String
  rest : String
deriving DecidableEq, Repr

/-- The dedupe key of a row:
`normalize_text(Address) + "|" + normalize_text(State)`. -/
def dedupeKey (r : CsvRow) : String :=
  normalize_text (some r.address) ++ "|" ++ normalize_text (some r.state)

/-- `DataFrame.drop_duplicates(subset=key, keep="first")`: keep each row
whose key has not been seen on an earlier row. -/
def dropDuplicatesFirst (seen : List String) : List CsvRow → List CsvRow
  | [] => []
  | r :: rest =>
    if dedupeKey r ∈ seen then dropDuplicatesFirst seen rest
    else r :: dropDuplicatesFirst (dedupeKey r :: seen) rest

/-- The deduplication performed by `dedupe_ios_csv.main` on the loaded rows. -/
def dedupeRows (rows : List CsvRow) : List CsvRow :=
  dropDuplicatesFirst [] rows

/-- Outcome of a run of `dedupe_ios_csv.main` after the file was loaded:
either the run aborts on missing required columns (reporting the columns
actually present and the missing ones, writing nothing), or the
deduplicated rows are written back. -/
inductive DedupeOutcome where
  | fatal (availableColumns : List String) (missing : List String)
  | written (rows : List CsvRow)
deriving DecidableEq, Repr

/-- `dedupe_ios_csv.main`, from the point where the CSV is loaded:
```python
df.columns = [c.strip() for c in df.columns]
required = ["Address", "State"]
missing = [c for c in required if c not in df.columns]
if missing:
    print("Available columns:", list(df.columns))
    raise ValueError(f"Missing required columns: {missing}")
...dedupe...
df.to_csv(path, index=False)
``` -/
def dedupe_main (header : List String) (rows : List CsvRow) : DedupeOutcome :=
  let cols := header.map pyStrip
  let missing := ["Address", "State"].filter (fun c => ¬ c ∈ cols)
  if missing ≠ [] then .fatal cols missing
  else .written (dedupeRows rows)

/-! ## `excel-to-map.fix_encoding` -/

/-- `s.encode("latin1")`: succeeds iff every character is below U+0100,
yielding one byte per character; otherwise `UnicodeEncodeError`. -/
def latin1EncodeBytes (l : List Char) : Option (List Nat) :=
  if l.all (fun c => c.toNat < 256) then some (l.map Char.toNat) else none

/-- A UTF-8 continuation byte `0x80`-`0xBF`. -/
def isContByte (b : Nat) : Bool := 0x80 ≤ b && b ≤ 0xBF

/-- Strict UTF-8 decoding (`bytes.decode("utf8")`), rejecting truncated
sequences, stray continuation bytes, overlong forms, surrogates and
code points above U+10FFFF.  `fuel` bounds the recursion; one unit is
spent per decoded character, so `fuel = bytes.length` always suffices. -/
def utf8DecodeF : Nat → List Nat → Option (List Char)
  | _, [] => some []
  | 0, _ :: _ => none
  | fuel + 1, b :: rest =>
    if b < 0x80 then
      (utf8DecodeF fuel rest).map (Char.ofNat b :: ·)
    else if 0xC2 ≤ b && b ≤ 0xDF then
      match rest with
      | b2 :: rest2 =>
        if isContByte b2 then
          (utf8DecodeF fuel rest2).map (Char.ofNat ((b - 0xC0) * 64 + (b2 - 0x80)) :: ·)
        else none
      | [] => none
    else if 0xE0 ≤ b && b ≤ 0xEF then
      match rest with
      | b2 :: b3 :: rest3 =>
        let lo2 := if b = 0xE0 then 0xA0 else 0x80
        let hi2 := if b = 0xED then 0x9F else 0xBF
        if lo2 ≤ b2 && b2 ≤ hi2 && isContByte b3 then
          (utf8DecodeF fuel rest3).map
            (Char.ofNat ((b - 0xE0) * 4096 + (b2 - 0x80) * 64 + (b3 - 0x80)) :: ·)
        else none
      | _ => none
    else if 0xF0 ≤ b && b ≤ 0xF4 then
      match rest with
      | b2 :: b3 :: b4 :: rest4 =>
        let lo2 := if b = 0xF0 then 0x90 else 0x80
        let hi2 := if b = 0xF4 then 0x8F else 0xBF
        if lo2 ≤ b2 && b2 ≤ hi2 && isContByte b3 && isContByte b4 then
          (utf8DecodeF fuel rest4).map
            (Char.ofNat ((b - 0xF0) * 262144 + (b2 - 0x80) * 4096 +
              (b3 - 0x80) * 64 + (b4 - 0x80)) :: ·)
        else none
      | _ => none
    else none

/-- The `try: s = s.encode("latin1").decode("utf8") except: pass` round trip:
on failure of either step the string is left unchanged. -/
def latin1Utf8Roundtrip (s : String) : String :=
  match latin1EncodeBytes s.data with
  | none => s
  | some bytes =>
    match utf8DecodeF bytes.length bytes with
    | some cs => String.mk cs
    | none => s

/-- `str.replace(pat, rep)`: replace every (leftmost, non-overlapping)
occurrence of `pat`.  `fuel` bounds the recursion; at least one character
of the input is consumed per step when `pat` is non-empty, so
`fuel = l.length` suffices. -/
def replaceF (pat rep : List Char) : Nat → List Char → List Char
  | _, [] => []
  | 0, l => l
  | fuel + 1, c :: rest =>
    if pat.isPrefixOf (c :: rest) then
      rep ++ replaceF pat rep fuel (List.drop pat.length (c :: rest))
    else c :: replaceF pat rep fuel rest

/-- `str.replace(pat, rep)` on character lists.  The guard on the empty
pattern (where Python would interleave `rep` between all characters) is
never exercised: every pattern of the program's replacement table is
non-empty. -/
def pyReplace (pat rep l : List Char) : List Char :=
  if pat = [] then l else replaceF pat rep l.length l

/-- The mojibake replacement table of `fix_encoding`, in source (dict
insertion) order, with the exact characters of the source file.  The keys
are the corrupted sequences; note the third entry maps a plain ASCII
hyphen to itself (in the source file the intended U+2011 key is itself
mojibake-corrupted down to `-`). -/
def mojibakeTable : List (String × String) :=
  [ ("Ã\u0083Â¢Ã\u0082Â\u0080Ã\u0082Â\u0091", "-"),
    ("Ã¢Â\u0080Â\u0091", "-"),
    ("-", "-"),
    ("â\u0080\u0093", "-"),
    ("â\u0080\u0094", "-"),
    ("Ã\u0083Â¢Ã\u0082Â\u0080Ã\u0082Â\u0099", "'"),
    ("Ã¢Â\u0080Â\u0099", "'"),
    ("â\u0080\u0099", "'") ]

/-- The `for bad, good in replacements.items(): s = s.replace(bad, good)`
loop of `fix_encoding`. -/
def applyMojibakeTable (l : List Char) : List Char :=
  mojibakeTable.foldl (fun l p => pyReplace p.1.data p.2.data l) l

/-- `" ".join(s.split())`: `str.split()` splits on runs of whitespace and
drops empty fields, so the join strips both ends and replaces each interior
whitespace run by a single space. -/
def joinSplitWS (l : List Char) : List Char :=
  collapseAllWS (pyStripL l)

/-- `excel-to-map.fix_encoding`: best-effort latin1/utf8 round trip, then
the mojibake replacement table, then whitespace normalisation.  The
`isinstance(s, str)` guard is vacuous in this typed model (a `String` is
always a string). -/
def fix_encoding (s : String) : String :=
  let s := latin1Utf8Roundtrip s
  let l := applyMojibakeTable s.data
  String.mk (joinSplitWS l)

/-! ## `excel-to-map.strip_suite` -/

/-- The keyword alternatives of the suite regex
`,\s*(Suite|Ste\.?|Unit|Bldg\.?|Building)\b[^,]*` (lower-cased for the
case-insensitive match).  The optional period of `Ste\.?` / `Bldg\.?` never
changes matchability: a period after the bare keyword is itself a non-word
character, so the `\b` after the bare keyword already holds, and the
trailing `[^,]*` consumes the period either way. -/
def suiteKeywords : List (List Char) :=
  ["suite".data, "ste".data, "unit".data, "bldg".data, "building".data]

/-- Case-insensitive prefix test of one lower-cased keyword. -/
def matchKeywordCI (kw l : List Char) : Bool :=
  kw.isPrefixOf (l.map pyLowerChar)

/-- The `\b` after the keyword group: the position after the keyword is a
word boundary iff the string ends there or the next character is not a
word character. -/
def boundaryOk (l : List Char) : Bool :=
  match l with
  | [] => true
  | c :: _ => ¬ isWordChar c

/-- Try to match `\s*(Suite|Ste\.?|Unit|Bldg\.?|Building)\b[^,]*` directly
after a comma; on success return the rest of the input after the match
(which starts at the next comma, or is empty). -/
def matchSuiteFragment (l : List Char) : Option (List Char) :=
  let afterWs := l.dropWhile isSpaceChar
  if suiteKeywords.any (fun kw =>
       matchKeywordCI kw afterWs && boundaryOk (afterWs.drop kw.length)) then
    some (afterWs.dropWhile (fun c => c ≠ ','))
  else none

/-- `re.sub(r",\s*(Suite|Ste\.?|Unit|Bldg\.?|Building)\b[^,]*", "", addr,
flags=re.IGNORECASE)`: scan left to right; at each comma try the fragment
match, and on success resume scanning right after the removed fragment.
`fuel = l.length` suffices: each step consumes at least one character. -/
def removeSuiteFragmentsF : Nat → List Char → List Char
  | _, [] => []
  | 0, l => l
  | fuel + 1, c :: rest =>
    if c = ',' then
      match matchSuiteFragment rest with
      | some rest' => removeSuiteFragmentsF fuel rest'
      | none => ',' :: removeSuiteFragmentsF fuel rest
    else c :: removeSuiteFragmentsF fuel rest

def removeSuiteFragments (l : List Char) : List Char :=
  removeSuiteFragmentsF l.length l

/-- `re.sub(r"#\s*\w+", "", addr)`: remove every `#` followed by optional
whitespace and at least one word character (the word run taken greedily);
a `#` not followed by such a run is kept.  `fuel = l.length` suffices. -/
def removeHashFragmentsF : Nat → List Char → List Char
  | _, [] => []
  | 0, l => l
  | fuel + 1, c :: rest =>
    if c = '#' then
      let afterWs := rest.dropWhile isSpaceChar
      match afterWs with
      | d :: _ =>
        if isWordChar d then removeHashFragmentsF fuel (afterWs.dropWhile isWordChar)
        else '#' :: removeHashFragmentsF fuel rest
      | [] => '#' :: removeHashFragmentsF fuel rest
    else c :: removeHashFragmentsF fuel rest

def removeHashFragments (l : List Char) : List Char :=
  removeHashFragmentsF l.length l

/-- `re.sub(r"\s{2,}", " ", s)`: every run of two or more whitespace
characters becomes a single space; an isolated whitespace character is
kept as it is.  The flag records whether the current position continues a
run that already had at least two characters. -/
def collapseMultiWS (inRun : Bool) : List Char → List Char
  | [] => []
  | [c] =>
    if isSpaceChar c then [if inRun then ' ' else c] else [c]
  | c :: d :: rest =>
    if isSpaceChar c then
      if isSpaceChar d then collapseMultiWS true (d :: rest)
      else (if inRun then ' ' else c) :: collapseMultiWS false (d :: rest)
    else c :: collapseMultiWS false (d :: rest)

/-- `re.sub(r"[,\s]+$", "", s)`: drop the trailing run of commas and
whitespace. -/
def rstripCommaWS (l : List Char) : List Char :=
  (l.reverse.dropWhile (fun c => c = ',' || isSpaceChar c)).reverse

/-- `excel-to-map.strip_suite`.  The `isinstance(addr, str)` guard is
vacuous in this typed model. -/
def strip_suite (addr : String) : String :=
  let a := (fix_encoding addr).data
  let a := removeSuiteFragments a
  let a := removeHashFragments a
  let a := pyStripL (collapseMultiWS false a)
  String.mk (rstripCommaWS a)

/-! ## `excel-to-map.load_and_clean` (per-row field construction) -/

/-- One raw row of the cleaned CSV (`astype(str)` already applied: every
cell is a string). -/
structure RawRecord where
  tenant : String
  location : String
  address : String
  city : String
  state : String
deriving DecidableEq, Repr

/-- One row of the data frame returned by `load_and_clean`. -/
structure CleanRecord where
  Tenant : String
  Location : String
  Address : String
  City : String
  State : String
  clean_address : String
  full_address : String
deriving DecidableEq, Repr

/-- The per-column cleanup of `load_and_clean`:
`df[col].astype(str).str.strip().apply(fix_encoding)`. -/
def cleanField (s : String) : String := fix_encoding (pyStrip s)

/-- The row-wise part of `excel-to-map.load_and_clean`: clean the five
required columns, derive `clean_address = strip_suite(Address)` and
`full_address = clean_address + ", " + City + ", " + State + ", USA"`.
(The header-repair heuristic and the missing-column check of
`load_and_clean` act on the frame as a whole and are not modelled here;
no claim concerns them.) -/
def load_and_clean_row (r : RawRecord) : CleanRecord :=
  let T := cleanField r.tenant
  let L := cleanField r.location
  let A := cleanField r.address
  let C := cleanField r.city
  let S := cleanField r.state
  let ca := strip_suite A
  { Tenant := T, Location := L, Address := A, City := C, State := S,
    clean_address := ca,
    full_address := ca ++ ", " ++ C ++ ", " ++ S ++ ", USA" }

/-! ## The geocoding client

`geocode_addresses` wraps `geolocator.geocode` in a geopy `RateLimiter`:

```python
geocode = RateLimiter(geolocator.geocode, min_delay_seconds=1,
                      max_retries=3, error_wait_seconds=5,
                      swallow_exceptions=True)
```

The provider (Nominatim) is an external collaborator; one attempt against
it is modelled as a function from the global attempt counter and the query
to an outcome, so a proof can describe providers whose behaviour changes
between attempts (e.g. transient failures that heal). -/

/-- Outcome of a single raw provider attempt.  `unavailable` and
`timedOut` are geopy's `GeocoderUnavailable` / `GeocoderTimedOut`, both
subclasses of `GeocoderServiceError`, the class the `RateLimiter`
retries on; `connError` (`ConnectionError`) and `otherError` are not
retried. -/
inductive ProviderOutcome where
  | found (lat lon : Int)
  | noMatch
  | unavailable
  | timedOut
  | connError
  | otherError
deriving DecidableEq, Repr

/-- A provider: the outcome of attempt number `i` (global counter) for a
query. -/
def Provider := Nat → String → ProviderOutcome

/-- Exception classes that can escape the raw call. -/
inductive ErrKind where
  | serviceUnavailable
  | serviceTimedOut
  | conn
  | other
deriving DecidableEq, Repr

/-- Is the outcome a `GeocoderServiceError` the `RateLimiter` retries? -/
def ProviderOutcome.isRetryable : ProviderOutcome → Bool
  | .unavailable => true
  | .timedOut => true
  | _ => false

/-- One attempt of the geopy `RateLimiter` retry loop: a successful or
non-retried outcome returns at once (one raw attempt, no back-off); a
retryable `GeocoderServiceError` outcome either raises the error when no
retries remain (`retry? = none`) or continues with the result of the
retries, accounting one more raw attempt and one more back-off wait. -/
def rateLimitedStep (errorWait : Nat) (outcome : ProviderOutcome)
    (retry? : Option (Except ErrKind (Option (Int × Int)) × Nat × Nat)) :
    Except ErrKind (Option (Int × Int)) × Nat × Nat :=
  match outcome with
  | .found lat lon => (.ok (some (lat, lon)), 1, 0)
  | .noMatch => (.ok none, 1, 0)
  | .connError => (.error .conn, 1, 0)
  | .otherError => (.error .other, 1, 0)
  | .unavailable =>
    match retry? with
    | none => (.error .serviceUnavailable, 1, 0)
    | some (res, n, w) => (res, n + 1, w + errorWait)
  | .timedOut =>
    match retry? with
    | none => (.error .serviceTimedOut, 1, 0)
    | some (res, n, w) => (res, n + 1, w + errorWait)

/-- The retry loop of the geopy `RateLimiter` (modelled from the geopy
contract, an external dependency: `max_retries` is the number of retries
*after* the first attempt, each retried on `GeocoderServiceError` only,
with `error_wait_seconds` slept between consecutive attempts).  Returns
the call result (`Except` for a propagating exception), the number of raw
attempts performed, and the total back-off time slept.  Structural
recursion on the remaining retries. -/
def rateLimitedGo (p : Provider) (errorWait : Nat) (addr : String) :
    Nat → Nat → Except ErrKind (Option (Int × Int)) × Nat × Nat
  | 0, base => rateLimitedStep errorWait (p base addr) none
  | r + 1, base =>
    rateLimitedStep errorWait (p base addr)
      (some (rateLimitedGo p errorWait addr r (base + 1)))

/-- One call of the `RateLimiter`-wrapped `geocode`: run the retry loop
and, since `swallow_exceptions=True`, turn any escaping exception into the
`None` return value.  (`min_delay_seconds` induces a constant pause per
attempt and is not otherwise observable; it is left out of the model.) -/
def rateLimiterCall (p : Provider) (maxRetries errorWait : Nat)
    (swallowExceptions : Bool) (addr : String) (base : Nat) :
    Except ErrKind (Option (Int × Int)) × Nat × Nat :=
  let R := rateLimitedGo p errorWait addr maxRetries base
  (if swallowExceptions then
    match R.1 with
    | .error _ => .ok none
    | ok => ok
   else R.1, R.2.1, R.2.2)

/-- A geocoding result cell pair: `lat`, `lon`, each possibly absent. -/
abbrev Coord := Option Int × Option Int

/-- The mutable state threaded through a geocoding batch: the in-memory
cache (a dict, modelled as an insertion-ordered association list), the
total number of raw provider attempts performed, and the total back-off
time slept. -/
structure GeoState where
  cache : List (String × Coord)
  attempts : Nat
  waited : Nat
deriving DecidableEq, Repr

/-- `excel-to-map.geocode_one` (the closure inside `geocode_addresses`):

```python
def geocode_one(addr):
    addr = (addr or "").strip()
    if not addr:
        return None, None
    if addr in cache:
        return cache[addr]
    try:
        loc = geocode(addr)
        if loc:
            result = (loc.latitude, loc.longitude)
        else:
            result = (None, None)
    except (GeocoderUnavailable, GeocoderTimedOut, ConnectionError):
        result = (None, None)
    except Exception:
        result = (None, None)
    cache[addr] = result
    return result
```

With `swallow_exceptions=True` the wrapped call never raises, so the two
`except` arms (modelled by the `.error` case) are unreachable, but they
are kept: any escaping exception would also yield `(None, None)`. -/
def geocode_one (p : Provider) (st : GeoState) (addr0 : String) :
    Coord × GeoState :=
  let addr := pyStrip addr0
  if addr = "" then ((none, none), st)
  else
    match st.cache.lookup addr with
    | some r => (r, st)
    | none =>
      let R := rateLimiterCall p 3 5 true addr st.attempts
      let result : Coord :=
        match R.1 with
        | .ok (some (lat, lon)) => (some lat, some lon)
        | .ok none => (none, none)
        | .error _ => (none, none)
      (result,
       { cache := st.cache ++ [(addr, result)],
         attempts := st.attempts + R.2.1,
         waited := st.waited + R.2.2 })

/-- The `for i, addr in enumerate(df["full_address"], ...)` loop: geocode
every query in order, threading the state. -/
def geocodeBatch (p : Provider) (st : GeoState) :
    List String → List Coord × GeoState
  | [] => ([], st)
  | a :: rest =>
    let R := geocode_one p st a
    let Rs := geocodeBatch p R.2 rest
    (R.1 :: Rs.1, Rs.2)

/-- A row of the frame after the `lat` / `lon` columns were added. -/
structure EnrichedRow where
  base : CleanRecord
  lat : Option Int
  lon : Option Int
deriving DecidableEq, Repr

/-- Is the row fully resolved (`dropna(subset=["lat", "lon"])` keeps it)? -/
def EnrichedRow.resolved (r : EnrichedRow) : Bool :=
  r.lat.isSome && r.lon.isSome

/-- The observable outputs of `excel-to-map.geocode_addresses`. -/
structure GeoOutput where
  /-- The frame with `lat` / `lon` columns attached, one row per input
  row, before any filtering. -/
  enriched : List EnrichedRow
  /-- `df_failed = df[df["lat"].isna() | df["lon"].isna()]`. -/
  failed : List EnrichedRow
  /-- The returned frame: `df.dropna(subset=["lat", "lon"])`. -/
  kept : List EnrichedRow
  /-- The `geocode_failures.csv` artifact: written only when `df_failed`
  is non-empty (`if not df_failed.empty`). -/
  failuresFile : Option (List EnrichedRow)
  finalState : GeoState
deriving Repr

/-- `excel-to-map.geocode_addresses`: build the rate-limited client over
the seeded cache, geocode every `full_address` in order, attach the
coordinate columns, split off the failure rows, write the failure artifact
only if there are failures, and return the fully resolved rows. -/
def geocode_addresses (p : Provider) (rows : List CleanRecord)
    (existing_cache : List (String × Coord)) : GeoOutput :=
  let st0 : GeoState := { cache := existing_cache, attempts := 0, waited := 0 }
  let B := geocodeBatch p st0 (rows.map (·.full_address))
  let enriched := List.zipWith
    (fun r (c : Coord) => EnrichedRow.mk r c.1 c.2) rows B.1
  let failed := enriched.filter (fun r => !r.resolved)
  let kept := enriched.filter (fun r => r.resolved)
  { enriched := enriched, failed := failed, kept := kept,
    failuresFile := if failed.isEmpty then none else some failed,
    finalState := B.2 }

/-! ## Helper lemmas -/

/-- Looking a key up in a dict after appending a binding for a key that was
absent finds the new binding. -/
theorem lookup_append_of_none {β : Type} (l : List (String × β)) (k : String)
    (v : β) (h : List.lookup k l = none) :
    List.lookup k (l ++ [(k, v)]) = some v := by
  rw [List.lookup_append, h, Option.none_or, List.lookup_cons_self]

/-- Every character of `collapseAllWS l` is a non-whitespace character of
`l`, or the space emitted for a whitespace run. -/
theorem mem_collapseAllWS {c : Char} :
    ∀ {l : List Char}, c ∈ collapseAllWS l →
      (c ∈ l ∧ isSpaceChar c = false) ∨ c = ' '
  | [], h => by simp [collapseAllWS] at h
  | [d], h => by
    by_cases hd : isSpaceChar d
    · simp [collapseAllWS, hd] at h; right; exact h
    · simp [collapseAllWS, hd] at h; subst h; left; simp [hd]
  | d :: e :: rest, h => by
    by_cases hd : isSpaceChar d
    · by_cases he : isSpaceChar e
      · simp only [collapseAllWS, hd, he, if_true] at h
        rcases mem_collapseAllWS h with ⟨h1, h2⟩ | h1
        · left; exact ⟨List.mem_cons_of_mem _ h1, h2⟩
        · right; exact h1
      · simp only [collapseAllWS, hd, he, if_true, if_false] at h
        rcases List.mem_cons.mp h with h1 | h1
        · right; exact h1
        · rcases mem_collapseAllWS h1 with ⟨h2, h3⟩ | h2
          · left; exact ⟨List.mem_cons_of_mem _ h2, h3⟩
          · right; exact h2
    · simp only [collapseAllWS, hd, if_false] at h
      rcases List.mem_cons.mp h with h1 | h1
      · subst h1; left; simp [hd]
      · rcases mem_collapseAllWS h1 with ⟨h2, h3⟩ | h2
        · left; exact ⟨List.mem_cons_of_mem _ h2, h3⟩
        · right; exact h2

/-- `collapseAllWS` keeps a leading non-whitespace character. -/
theorem collapseAllWS_cons_nonspace {c : Char} (h : isSpaceChar c = false) :
    ∀ (t : List Char), collapseAllWS (c :: t) = c :: collapseAllWS t
  | [] => by simp [collapseAllWS, h]
  | _ :: _ => by simp [collapseAllWS, h]

/-- No two adjacent characters of the list are both whitespace. -/
def noTwoAdjacentWS : List Char → Bool
  | [] => true
  | [_] => true
  | c :: d :: rest =>
    !(isSpaceChar c && isSpaceChar d) && noTwoAdjacentWS (d :: rest)

/-- After collapsing whitespace runs, no two adjacent characters are both
whitespace. -/
theorem noTwoAdjacentWS_collapseAllWS :
    ∀ (l : List Char), noTwoAdjacentWS (collapseAllWS l) = true
  | [] => by simp [collapseAllWS, noTwoAdjacentWS]
  | [c] => by
    by_cases hc : isSpaceChar c <;>
      simp [collapseAllWS, hc, noTwoAdjacentWS]
  | c :: d :: rest => by
    by_cases hc : isSpaceChar c
    · by_cases hd : isSpaceChar d
      · simp only [collapseAllWS, hc, hd, if_true]
        exact noTwoAdjacentWS_collapseAllWS (d :: rest)
      · simp only [collapseAllWS, hc, hd, if_true, if_false]
        rw [collapseAllWS_cons_nonspace (by simp [hd]) rest]
        have ih := noTwoAdjacentWS_collapseAllWS (d :: rest)
        rw [collapseAllWS_cons_nonspace (by simp [hd]) rest] at ih
        simp [noTwoAdjacentWS, hd, ih]
    · simp only [collapseAllWS, hc, if_false]
      have ih := noTwoAdjacentWS_collapseAllWS (d :: rest)
      cases hX : collapseAllWS (d :: rest) with
      | nil => simp [noTwoAdjacentWS]
      | cons x xs =>
        rw [hX] at ih
        simp [noTwoAdjacentWS, hc, ih]

/-- A character surviving `str.strip` was a character of the input. -/
theorem mem_pyStripL {c : Char} {l : List Char} (h : c ∈ pyStripL l) :
    c ∈ l := by
  unfold pyStripL at h
  rw [List.mem_reverse] at h
  have h1 := List.dropWhile_sublist (l := (l.dropWhile isSpaceChar).reverse)
    (p := isSpaceChar)
  have h2 := List.dropWhile_sublist (l := l) (p := isSpaceChar)
  have := h1.subset h
  rw [List.mem_reverse] at this
  exact h2.subset this

/-- `str.lower` never produces an ASCII upper-case letter. -/
theorem isUpper_pyLowerChar (c : Char) : (pyLowerChar c).isUpper = false := by
  unfold pyLowerChar Char.toLower
  dsimp only
  split
  · next h =>
    obtain ⟨h1, h2⟩ := h
    set m := Char.toNat c with hm
    interval_cases m <;> decide
  · next h =>
    simp only [Char.isUpper]
    rw [Bool.and_eq_false_iff]
    by_cases h65 : Char.toNat c ≥ 65
    · by_cases h90 : Char.toNat c ≤ 90
      · exact absurd ⟨h65, h90⟩ h
      · right
        rw [decide_eq_false_iff_not]
        simp only [Char.toNat] at h90
        intro hle
        exact h90 (UInt32.toNat_le_of_le (by decide) hle)
    · left
      rw [decide_eq_false_iff_not]
      simp only [Char.toNat] at h65
      intro hle
      exact h65 (UInt32.le_toNat_of_le (by decide) hle)

/-- Deduplication only drops rows: the output is a sublist of the input,
in input order. -/
theorem dropDuplicatesFirst_sublist :
    ∀ (seen : List String) (rows : List CsvRow),
      (dropDuplicatesFirst seen rows).Sublist rows
  | _, [] => List.Sublist.slnil
  | seen, r :: rest => by
    unfold dropDuplicatesFirst
    split
    · exact (dropDuplicatesFirst_sublist seen rest).cons r
    · exact (dropDuplicatesFirst_sublist _ rest).cons₂ r

/-- The rows of key `k` surviving deduplication are exactly the first
input row of key `k` — none if `k` was already seen. -/
theorem dropDuplicatesFirst_filter (k : String) :
    ∀ (seen : List String) (rows : List CsvRow),
      (dropDuplicatesFirst seen rows).filter (fun r => dedupeKey r = k) =
        if k ∈ seen then []
        else (rows.filter (fun r => dedupeKey r = k)).take 1
  | seen, [] => by
    simp [dropDuplicatesFirst]
  | seen, r :: rest => by
    unfold dropDuplicatesFirst
    by_cases hs : dedupeKey r ∈ seen
    · rw [if_pos hs]
      rw [dropDuplicatesFirst_filter k seen rest]
      by_cases hk : k ∈ seen
      · simp [hk]
      · have hrk : ¬ dedupeKey r = k := fun h => hk (h ▸ hs)
        simp [hk, List.filter_cons, hrk]
    · rw [if_neg hs]
      by_cases hrk : dedupeKey r = k
      · subst hrk
        rw [List.filter_cons_of_pos (by simp), List.filter_cons_of_pos (by simp)]
        rw [dropDuplicatesFirst_filter (dedupeKey r) (dedupeKey r :: seen) rest]
        simp [hs]
      · rw [List.filter_cons_of_neg (by simp [hrk]),
          List.filter_cons_of_neg (by simp [hrk])]
        rw [dropDuplicatesFirst_filter k (dedupeKey r :: seen) rest]
        by_cases hk : k ∈ seen
        · rw [if_pos (List.mem_cons_of_mem _ hk), if_pos hk]
        · have hnc : ¬ k ∈ dedupeKey r :: seen := by
            intro hmem
            rcases List.mem_cons.mp hmem with h | h
            · exact hrk h.symm
            · exact hk h
          rw [if_neg hnc, if_neg hk]

/-- The geocoding loop produces one coordinate pair per query. -/
theorem geocodeBatch_length (p : Provider) :
    ∀ (st : GeoState) (qs : List String),
      (geocodeBatch p st qs).1.length = qs.length
  | _, [] => rfl
  | st, a :: rest => by
    unfold geocodeBatch
    simp only [List.length_cons]
    rw [geocodeBatch_length p _ rest]

/-- Zipping the rows with their coordinates and projecting the row back
out is the identity when there are as many coordinates as rows. -/
theorem map_base_zipWith :
    ∀ (rows : List CleanRecord) (coords : List Coord),
      coords.length = rows.length →
      (List.zipWith (fun r (c : Coord) => EnrichedRow.mk r c.1 c.2) rows
        coords).map EnrichedRow.base = rows
  | [], _, _ => by simp
  | r :: rest, [], h => by simp at h
  | r :: rest, c :: cs, h => by
    simp only [List.zipWith_cons_cons, List.map_cons]
    rw [map_base_zipWith rest cs (by simpa using h)]

/-- Splitting a list by a Boolean predicate and its negation preserves the
total length. -/
theorem length_filter_add_length_filter_not (l : List EnrichedRow)
    (p : EnrichedRow → Bool) :
    (l.filter p).length + (l.filter (fun r => !p r)).length = l.length := by
  induction l with
  | nil => rfl
  | cons a t ih =>
    by_cases h : p a
    · rw [List.filter_cons_of_pos h, List.filter_cons_of_neg (by simp [h])]
      simp only [List.length_cons]
      omega
    · rw [List.filter_cons_of_neg (by simpa using h),
        List.filter_cons_of_pos (by simpa using h)]
      simp only [List.length_cons]
      omega

/-- Bounds on one `RateLimiter` retry loop: at least one and at most
`retriesLeft + 1` raw attempts are performed, and the total back-off slept
is `errorWait` for every attempt after the first. -/
theorem rateLimitedGo_bounds (p : Provider) (errorWait : Nat) (addr : String) :
    ∀ (retriesLeft base : Nat),
      1 ≤ (rateLimitedGo p errorWait addr retriesLeft base).2.1 ∧
      (rateLimitedGo p errorWait addr retriesLeft base).2.1 ≤ retriesLeft + 1 ∧
      (rateLimitedGo p errorWait addr retriesLeft base).2.2 =
        errorWait * ((rateLimitedGo p errorWait addr retriesLeft base).2.1 - 1) := by
  intro retriesLeft
  induction retriesLeft with
  | zero =>
    intro base
    simp only [rateLimitedGo]
    cases hp : p base addr <;> simp [rateLimitedStep]
  | succ r ih =>
    intro base
    obtain ⟨h1, h2, h3⟩ := ih (base + 1)
    rcases hrec : rateLimitedGo p errorWait addr r (base + 1) with ⟨res, n, w⟩
    rw [hrec] at h1 h2 h3
    simp only at h1 h2 h3
    simp only [rateLimitedGo, hrec]
    cases hp : p base addr <;> simp [rateLimitedStep]
    all_goals
      refine ⟨by omega, ?_⟩
      rw [h3]
      cases n with
      | zero => omega
      | succ m => simp [Nat.mul_succ]

/-- Against a provider that signals a retryable service error on every
attempt, the retry loop exhausts all attempts: `retriesLeft + 1` raw
attempts, full back-off, and a propagating service error (which the
`swallow_exceptions=True` wrapper then turns into `None`). -/
theorem rateLimitedGo_all_retryable (p : Provider) (errorWait : Nat)
    (addr : String) (hp : ∀ i, (p i addr).isRetryable = true) :
    ∀ (retriesLeft base : Nat),
      ((rateLimitedGo p errorWait addr retriesLeft base).1 =
          .error .serviceUnavailable ∨
        (rateLimitedGo p errorWait addr retriesLeft base).1 =
          .error .serviceTimedOut) ∧
      (rateLimitedGo p errorWait addr retriesLeft base).2.1 = retriesLeft + 1 ∧
      (rateLimitedGo p errorWait addr retriesLeft base).2.2 =
        errorWait * retriesLeft := by
  intro retriesLeft
  induction retriesLeft with
  | zero =>
    intro base
    have hb := hp base
    simp only [rateLimitedGo]
    cases hpb : p base addr <;> rw [hpb] at hb <;>
      simp [ProviderOutcome.isRetryable] at hb ⊢ <;>
      simp [rateLimitedStep]
  | succ r ih =>
    intro base
    have hb := hp base
    obtain ⟨h1, h2, h3⟩ := ih (base + 1)
    rcases hrec : rateLimitedGo p errorWait addr r (base + 1) with ⟨res, n, w⟩
    rw [hrec] at h1 h2 h3
    simp only at h1 h2 h3
    simp only [rateLimitedGo, hrec]
    cases hpb : p base addr <;> rw [hpb] at hb <;>
      simp [ProviderOutcome.isRetryable] at hb <;>
      simp [rateLimitedStep]
    all_goals
      exact ⟨h1, by omega, by subst h3; ring⟩

/-- `geocode_one` on a cache hit: return the cached pair, state untouched. -/
theorem geocode_one_hit (p : Provider) (st : GeoState) (q : String)
    (r : Coord) (h1 : pyStrip q ≠ "")
    (h2 : List.lookup (pyStrip q) st.cache = some r) :
    geocode_one p st q = (r, st) := by
  simp [geocode_one, h1, h2]

/-- `geocode_one` on a cache miss: call the rate-limited client, cache the
outcome (coordinates on success, absent/absent on no-match or error), and
account the raw attempts and the back-off. -/
theorem geocode_one_miss (p : Provider) (st : GeoState) (q : String)
    (h1 : pyStrip q ≠ "")
    (h2 : List.lookup (pyStrip q) st.cache = none) :
    geocode_one p st q =
      ((match (rateLimiterCall p 3 5 true (pyStrip q) st.attempts).1 with
        | .ok (some (lat, lon)) => ((some lat, some lon) : Coord)
        | .ok none => (none, none)
        | .error _ => (none, none)),
       { cache := st.cache ++
           [(pyStrip q,
             match (rateLimiterCall p 3 5 true (pyStrip q) st.attempts).1 with
             | .ok (some (lat, lon)) => ((some lat, some lon) : Coord)
             | .ok none => (none, none)
             | .error _ => (none, none))],
         attempts :=
           st.attempts + (rateLimiterCall p 3 5 true (pyStrip q) st.attempts).2.1,
         waited :=
           st.waited + (rateLimiterCall p 3 5 true (pyStrip q) st.attempts).2.2 }) := by
  simp [geocode_one, h1, h2]

/-! ## The claims -/

/-- **C1**: For every non-empty geocode query resolved against a shared
cache, every resolution leaves the query's result in the cache — in
particular every cache miss writes its result, whether the provider
returned coordinates, returned no match, or the attempt failed (the
statement quantifies over every provider behaviour) — and resolving the
same query a second time returns the same result with the state unchanged:
the attempt counter does not move, so no provider call is made for the
repeat query. -/
theorem C1_cache_short_circuits_provider (p : Provider) (st : GeoState)
    (q : String) (hq : pyStrip q ≠ "") :
    geocode_one p ((geocode_one p st q).2) q = geocode_one p st q ∧
    List.lookup (pyStrip q) ((geocode_one p st q).2).cache =
      some (geocode_one p st q).1 ∧
    (geocodeBatch p st [q, q]).2 = (geocodeBatch p st [q]).2 := by
  have hmain : geocode_one p ((geocode_one p st q).2) q = geocode_one p st q ∧
      List.lookup (pyStrip q) ((geocode_one p st q).2).cache =
        some (geocode_one p st q).1 := by
    cases hc : List.lookup (pyStrip q) st.cache with
    | some r =>
      have he : geocode_one p st q = (r, st) := geocode_one_hit p st q r hq hc
      rw [he]
      exact ⟨he, hc⟩
    | none =>
      have he := geocode_one_miss p st q hq hc
      rw [he]
      have hl : List.lookup (pyStrip q)
          (((geocode_one p st q).2).cache) = some ((geocode_one p st q).1) := by
        rw [he]
        exact lookup_append_of_none st.cache (pyStrip q) _ hc
      rw [he] at hl
      exact ⟨geocode_one_hit p _ q _ hq hl, hl⟩
  refine ⟨hmain.1, hmain.2, ?_⟩
  simp only [geocodeBatch]
  rw [hmain.1]

/-- Witness for C1: a fresh query against an arbitrary provider. -/
theorem C1_cache_short_circuits_provider_witness :
    pyStrip "1 Main St, Tampa, FL, USA" ≠ "" ∧
    (geocode_one (fun _ _ => .noMatch)
        ((geocode_one (fun _ _ => .noMatch) ⟨[], 0, 0⟩
          "1 Main St, Tampa, FL, USA").2) "1 Main St, Tampa, FL, USA" =
      geocode_one (fun _ _ => .noMatch) ⟨[], 0, 0⟩ "1 Main St, Tampa, FL, USA" ∧
    List.lookup (pyStrip "1 Main St, Tampa, FL, USA")
        ((geocode_one (fun _ _ => .noMatch) ⟨[], 0, 0⟩
          "1 Main St, Tampa, FL, USA").2).cache =
      some (geocode_one (fun _ _ => .noMatch) ⟨[], 0, 0⟩
        "1 Main St, Tampa, FL, USA").1 ∧
    (geocodeBatch (fun _ _ => .noMatch) ⟨[], 0, 0⟩
        ["1 Main St, Tampa, FL, USA", "1 Main St, Tampa, FL, USA"]).2 =
      (geocodeBatch (fun _ _ => .noMatch) ⟨[], 0, 0⟩
        ["1 Main St, Tampa, FL, USA"]).2) :=
  ⟨by decide,
   C1_cache_short_circuits_provider (fun _ _ => .noMatch) ⟨[], 0, 0⟩
     "1 Main St, Tampa, FL, USA" (by decide)⟩

/-- **C4**: An empty or whitespace-only query resolves immediately to
absent/absent with the state unchanged: the attempt counter does not move
(no provider call), the cache is not written (in particular its size is
unchanged), and the result does not depend on the cache contents. -/
theorem C4_empty_query_no_call_no_cache (p : Provider) (st : GeoState)
    (q : String) (hq : pyStrip q = "") :
    geocode_one p st q = ((none, none), st) := by
  simp [geocode_one, hq]

/-- Witness for C4 at the whitespace-only query `"  "` over a non-trivial
cache. -/
theorem C4_empty_query_no_call_no_cache_witness :
    pyStrip "  " = "" ∧
    geocode_one (fun _ _ => .found 1 2)
        ⟨[("x", (some 1, some 2))], 5, 7⟩ "  " =
      ((none, none), ⟨[("x", (some 1, some 2))], 5, 7⟩) :=
  ⟨by decide,
   C4_empty_query_no_call_no_cache (fun _ _ => .found 1 2)
     ⟨[("x", (some 1, some 2))], 5, 7⟩ "  " (by decide)⟩

/-- A provider whose first three attempts signal `GeocoderUnavailable` and
whose fourth attempt succeeds. -/
def transientThriceProvider : Provider :=
  fun i _ => if i < 3 then .unavailable else .found 27 82

/-- **C3 (counterexample)**: the retry ceiling is not 3 attempts total.
With `max_retries=3` the geopy wrapper performs the first attempt plus up
to three retries, i.e. four raw attempts: against a provider that signals
a transient failure on its first three attempts and succeeds on the
fourth, the code performs 4 attempts (with 15 = 3·5 units of back-off) and
resolves the query to coordinates — under a ceiling of 3 attempts total,
as claimed, this query would have resolved to absent/absent. -/
theorem C3_retry_ceiling_counterexample :
    (geocode_one transientThriceProvider ⟨[], 0, 0⟩ "X").1 =
      (some 27, some 82) ∧
    ((geocode_one transientThriceProvider ⟨[], 0, 0⟩ "X").2).attempts = 4 ∧
    ((geocode_one transientThriceProvider ⟨[], 0, 0⟩ "X").2).waited = 15 := by
  decide

/-- **C3 (amended)**: on a cache miss the provider call is retried on
transient-unavailable/timeout signals up to 3 retries after the first
attempt — 4 attempts total — waiting 5 time units between consecutive
attempts (the back-off slept is 5·(attempts−1)); if all attempts are
exhausted (a provider that is transiently failing on every attempt), or
any other unexpected error occurs on the attempt (which is not retried),
the query resolves to absent/absent; no exception propagates out
(`geocode_one` is a total function into results). -/
theorem C3_retry_policy_amended (p : Provider) (st : GeoState) (q : String)
    (hq : pyStrip q ≠ "")
    (hmiss : List.lookup (pyStrip q) st.cache = none) :
    (1 ≤ ((geocode_one p st q).2).attempts - st.attempts ∧
      ((geocode_one p st q).2).attempts - st.attempts ≤ 4) ∧
    ((geocode_one p st q).2).waited - st.waited =
      5 * (((geocode_one p st q).2).attempts - st.attempts - 1) ∧
    ((∀ i, (p i (pyStrip q)).isRetryable = true) →
      (geocode_one p st q).1 = (none, none) ∧
      ((geocode_one p st q).2).attempts = st.attempts + 4 ∧
      ((geocode_one p st q).2).waited = st.waited + 15) ∧
    ((p st.attempts (pyStrip q) = .connError ∨
        p st.attempts (pyStrip q) = .otherError) →
      (geocode_one p st q).1 = (none, none) ∧
      ((geocode_one p st q).2).attempts = st.attempts + 1) := by
  have he := geocode_one_miss p st q hq hmiss
  have hbounds := rateLimitedGo_bounds p 5 (pyStrip q) 3 st.attempts
  obtain ⟨hb1, hb2, hb3⟩ := hbounds
  refine ⟨⟨?_, ?_⟩, ?_, ?_, ?_⟩
  · rw [he]
    simp only [rateLimiterCall]
    omega
  · rw [he]
    simp only [rateLimiterCall]
    omega
  · rw [he]
    simp only [rateLimiterCall]
    omega
  · intro hall
    obtain ⟨h1, h2, h3⟩ := rateLimitedGo_all_retryable p 5 (pyStrip q) hall 3 st.attempts
    rw [he]
    simp only [rateLimiterCall]
    rcases h1 with h1 | h1 <;> rw [h1] <;> simp [h2, h3]
  · intro hdir
    rw [he]
    simp only [rateLimiterCall]
    rcases hdir with hdir | hdir <;>
      simp [rateLimitedGo, rateLimitedStep, hdir]

/-- Witness for C3 (amended) against an always-unavailable provider. -/
theorem C3_retry_policy_amended_witness :
    pyStrip "X" ≠ "" ∧
    List.lookup (pyStrip "X") (⟨[], 0, 0⟩ : GeoState).cache = none ∧
    ((1 ≤ ((geocode_one (fun _ _ => .unavailable) ⟨[], 0, 0⟩ "X").2).attempts - 0 ∧
      ((geocode_one (fun _ _ => .unavailable) ⟨[], 0, 0⟩ "X").2).attempts - 0 ≤ 4) ∧
    ((geocode_one (fun _ _ => .unavailable) ⟨[], 0, 0⟩ "X").2).waited - 0 =
      5 * (((geocode_one (fun _ _ => .unavailable) ⟨[], 0, 0⟩ "X").2).attempts - 0 - 1) ∧
    ((∀ i, ((fun _ _ => .unavailable : Provider) i (pyStrip "X")).isRetryable = true) →
      (geocode_one (fun _ _ => .unavailable) ⟨[], 0, 0⟩ "X").1 = (none, none) ∧
      ((geocode_one (fun _ _ => .unavailable) ⟨[], 0, 0⟩ "X").2).attempts = 0 + 4 ∧
      ((geocode_one (fun _ _ => .unavailable) ⟨[], 0, 0⟩ "X").2).waited = 0 + 15) ∧
    (((fun _ _ => .unavailable : Provider) 0 (pyStrip "X") = .connError ∨
        (fun _ _ => .unavailable : Provider) 0 (pyStrip "X") = .otherError) →
      (geocode_one (fun _ _ => .unavailable) ⟨[], 0, 0⟩ "X").1 = (none, none) ∧
      ((geocode_one (fun _ _ => .unavailable) ⟨[], 0, 0⟩ "X").2).attempts = 0 + 1)) :=
  ⟨by decide, by decide,
   C3_retry_policy_amended (fun _ _ => .unavailable) ⟨[], 0, 0⟩ "X"
     (by decide) (by decide)⟩

/-- **C2**: every input record yields exactly one enriched record (the
enriched frame has one row per input row, and projecting the added
coordinate columns away gives back exactly the input), and the resolved
rows (both coordinates present) and the failed rows (either coordinate
absent) form a disjoint partition: the two lengths sum to the input count
and every enriched row belongs to exactly one of the two sets. -/
theorem C2_enrichment_partition (p : Provider) (rows : List CleanRecord)
    (cache : List (String × Coord)) :
    (geocode_addresses p rows cache).enriched.length = rows.length ∧
    (geocode_addresses p rows cache).enriched.map EnrichedRow.base = rows ∧
    (geocode_addresses p rows cache).kept.length +
      (geocode_addresses p rows cache).failed.length = rows.length ∧
    ∀ r ∈ (geocode_addresses p rows cache).enriched,
      (r ∈ (geocode_addresses p rows cache).kept ∧
        r ∉ (geocode_addresses p rows cache).failed) ∨
      (r ∈ (geocode_addresses p rows cache).failed ∧
        r ∉ (geocode_addresses p rows cache).kept) := by
  have hcoords : (geocodeBatch p ⟨cache, 0, 0⟩
      (rows.map (·.full_address))).1.length = rows.length := by
    rw [geocodeBatch_length]
    exact List.length_map rows _
  have hlen : (geocode_addresses p rows cache).enriched.length = rows.length := by
    simp only [geocode_addresses]
    rw [List.length_zipWith, hcoords, Nat.min_self]
  refine ⟨hlen, ?_, ?_, ?_⟩
  · simp only [geocode_addresses]
    exact map_base_zipWith rows _ hcoords
  · have := length_filter_add_length_filter_not
      ((geocode_addresses p rows cache).enriched) (fun r => r.resolved)
    simp only [geocode_addresses] at this ⊢
    rw [this]
    simpa [geocode_addresses] using hlen
  · intro r hr
    by_cases hres : r.resolved
    · left
      constructor
      · exact List.mem_filter.mpr ⟨hr, hres⟩
      · intro hmem
        have := (List.mem_filter.mp hmem).2
        simp [hres] at this
    · right
      constructor
      · exact List.mem_filter.mpr ⟨hr, by simpa using hres⟩
      · intro hmem
        have := (List.mem_filter.mp hmem).2
        simp [hres] at this

/-- **C9**: the stored display `Address` is never replaced by the
simplification output: `load_and_clean` stores the cleaned raw address
(whitespace-stripped and encoding-fixed only), keeps the `strip_suite`
result in the derived `clean_address` column and uses it (not the display
address) inside `full_address`, and the geocoding step passes every stored
record through unchanged — the enriched rows project back to exactly the
input records.  The concrete record shows a suite fragment surviving in
the stored display address while being removed from the geocoding
columns. -/
theorem C9_display_address_preserved (raw : RawRecord) (p : Provider)
    (rows : List CleanRecord) (cache : List (String × Coord)) :
    (load_and_clean_row raw).Address = cleanField raw.address ∧
    (load_and_clean_row raw).clean_address =
      strip_suite (cleanField raw.address) ∧
    (load_and_clean_row raw).full_address =
      strip_suite (cleanField raw.address) ++ ", " ++ cleanField raw.city ++
        ", " ++ cleanField raw.state ++ ", USA" ∧
    (geocode_addresses p rows cache).enriched.map EnrichedRow.base = rows ∧
    (∀ r ∈ (geocode_addresses p rows cache).kept, r.base ∈ rows) ∧
    (load_and_clean_row ⟨"A", "L", "1 Main St, Suite 5", "Tampa", "FL"⟩).Address =
      "1 Main St, Suite 5" ∧
    (load_and_clean_row ⟨"A", "L", "1 Main St, Suite 5", "Tampa", "FL"⟩).clean_address =
      "1 Main St" := by
  have hcoords : (geocodeBatch p ⟨cache, 0, 0⟩
      (rows.map (·.full_address))).1.length = rows.length := by
    rw [geocodeBatch_length]
    exact List.length_map rows _
  have hbase : (geocode_addresses p rows cache).enriched.map EnrichedRow.base
      = rows := by
    simp only [geocode_addresses]
    exact map_base_zipWith rows _ hcoords
  refine ⟨rfl, rfl, rfl, hbase, ?_, by decide, by decide⟩
  intro r hr
  have hmem : r ∈ (geocode_addresses p rows cache).enriched := by
    simp only [geocode_addresses] at hr ⊢
    exact List.mem_of_mem_filter hr
  rw [← hbase]
  exact List.mem_map_of_mem EnrichedRow.base hmem

/-- Witness for C9 on a concrete record and a one-row batch. -/
theorem C9_display_address_preserved_witness :
    ((geocode_addresses (fun _ _ => .found 27 82)
        [load_and_clean_row ⟨"A", "L", "1 Main St, Suite 5", "Tampa", "FL"⟩]
        []).kept.map EnrichedRow.base) =
      [load_and_clean_row ⟨"A", "L", "1 Main St, Suite 5", "Tampa", "FL"⟩] := by
  have h := C9_display_address_preserved
    ⟨"A", "L", "1 Main St, Suite 5", "Tampa", "FL"⟩
    (fun _ _ => .found 27 82)
    [load_and_clean_row ⟨"A", "L", "1 Main St, Suite 5", "Tampa", "FL"⟩] []
  exact h.2.2.2.1 ▸ by decide

/-- **C10**: the failures-only artifact is written iff some enriched row
has an absent coordinate; when every row resolves no file is written at
all, and an empty failures file is never produced. -/
theorem C10_failures_file_only_when_failures (p : Provider)
    (rows : List CleanRecord) (cache : List (String × Coord)) :
    ((geocode_addresses p rows cache).failuresFile = none ↔
      ∀ r ∈ (geocode_addresses p rows cache).enriched, r.resolved = true) ∧
    (geocode_addresses p rows cache).failuresFile ≠ some [] := by
  constructor
  · simp only [geocode_addresses]
    constructor
    · intro h r hr
      by_cases hemp : (List.filter (fun r => !r.resolved)
          (List.zipWith (fun r (c : Coord) => EnrichedRow.mk r c.1 c.2) rows
            (geocodeBatch p ⟨cache, 0, 0⟩ (rows.map (·.full_address))).1)).isEmpty
      · rw [List.isEmpty_iff, List.filter_eq_nil_iff] at hemp
        have := hemp r hr
        simpa using this
      · simp only [hemp] at h
        simp at h
    · intro h
      have : (List.filter (fun r => !r.resolved)
          (List.zipWith (fun r (c : Coord) => EnrichedRow.mk r c.1 c.2) rows
            (geocodeBatch p ⟨cache, 0, 0⟩ (rows.map (·.full_address))).1)) = [] := by
        rw [List.filter_eq_nil_iff]
        intro a ha
        simp [h a ha]
      simp [this]
  · simp only [geocode_addresses]
    split
    · simp
    · next hemp =>
      intro hcontra
      rw [Option.some.injEq] at hcontra
      rw [hcontra] at hemp
      simp at hemp

/-- **C5**: deduplication retains the first record observed for each
distinct normalized (address, state) key in input order and drops all
later records of that key: the output is a sublist of the input (order
preserved, never longer), for every key the surviving rows are exactly the
first input row of that key, and the kept count plus the removed count
(`before - after`, as the script computes it) equals the input count.  The
concrete pair differing only in case and punctuation collapses to its
first row. -/
theorem C5_dedupe_first_seen_wins (rows : List CsvRow) :
    (dedupeRows rows).Sublist rows ∧
    (dedupeRows rows).length + (rows.length - (dedupeRows rows).length) =
      rows.length ∧
    (∀ k, (dedupeRows rows).filter (fun r => dedupeKey r = k) =
      (rows.filter (fun r => dedupeKey r = k)).take 1) ∧
    dedupeRows [⟨"1 Main St", "FL", "tenantA"⟩, ⟨"1 main st!", "fl", "tenantB"⟩] =
      [⟨"1 Main St", "FL", "tenantA"⟩] := by
  have hsub : (dedupeRows rows).Sublist rows :=
    dropDuplicatesFirst_sublist [] rows
  refine ⟨hsub, ?_, ?_, ?_⟩
  · have := hsub.length_le
    omega
  · intro k
    have := dropDuplicatesFirst_filter k [] rows
    simpa [dedupeRows] using this
  · decide

/-- **C6 (counterexample)**: the claim says every character that is
neither alphanumeric nor whitespace is removed, but the underscore — which
is neither — survives normalization: the code removes `[^\w\s]` and
Python's `\w` includes the underscore. -/
theorem C6_normalize_underscore_counterexample :
    normalize_text (some "_") = "_" ∧
    Char.isAlphanum '_' = false ∧ isSpaceChar '_' = false := by
  refine ⟨?_, by decide, by decide⟩
  decide

/-- **C6 (amended)**: `normalize_text` treats the absent input as the
empty string and otherwise lower-cases, trims, removes every character
that is neither a *word character* (alphanumeric or underscore) nor
whitespace, and collapses whitespace runs to a single space: every
character of the output is a non-uppercase word character or a single
space, no two adjacent output characters are spaces, and the concrete
inputs show the case-folding, trimming and collapsing.  It is a total
function (modelled as a Lean function) and never raises. -/
theorem C6_normalize_amended :
    normalize_text none = "" ∧
    normalize_text (some "123 Main St.") = "123 main st" ∧
    normalize_text (some "  A_b??  C!  ") = "a_b c" ∧
    ∀ s : String,
      (∀ c ∈ (normalize_text (some s)).data,
        (isWordChar c = true ∧ c.isUpper = false) ∨ c = ' ') ∧
      noTwoAdjacentWS (normalize_text (some s)).data = true := by
  refine ⟨rfl, by decide, by decide, ?_⟩
  intro s
  constructor
  · intro c hc
    have hc' : c ∈ collapseAllWS ((pyStripL (s.data.map pyLowerChar)).filter
        (fun c => isWordChar c || isSpaceChar c)) := by
      simpa [normalize_text] using hc
    rcases mem_collapseAllWS hc' with ⟨h1, h2⟩ | h1
    · left
      have hfil := (List.mem_filter.mp h1).2
      have hmem := (List.mem_filter.mp h1).1
      have hword : isWordChar c = true := by
        have hfil' : isWordChar c = true ∨ isSpaceChar c = true := by
          simpa using hfil
        rcases hfil' with h | h
        · exact h
        · rw [h] at h2; cases h2
      refine ⟨hword, ?_⟩
      have hmem2 := mem_pyStripL hmem
      rcases List.mem_map.mp hmem2 with ⟨a, _, rfl⟩
      exact isUpper_pyLowerChar a
    · right; exact h1
  · have := noTwoAdjacentWS_collapseAllWS
      ((pyStripL (s.data.map pyLowerChar)).filter
        (fun c => isWordChar c || isSpaceChar c))
    simpa [normalize_text] using this

/-- Witness for C6 (amended) at a concrete output character. -/
theorem C6_normalize_amended_witness :
    ('a' ∈ (normalize_text (some "a b")).data) ∧
    ((isWordChar 'a' = true ∧ Char.isUpper 'a' = false) ∨ 'a' = ' ') :=
  ⟨by decide, (C6_normalize_amended.2.2.2 "a b").1 'a' (by decide)⟩

/-- The case/punctuation variants of the suite keywords exercised by C7. -/
def suiteKeywordVariants : List String :=
  ["Suite", "suite", "SUITE", "Ste", "Ste.", "ste", "STE.",
   "Unit", "unit", "UNIT", "Bldg", "Bldg.", "bldg",
   "Building", "building", "BUILDING"]

/-- **C7**: address simplification removes a comma-delimited
suite/unit/building fragment — any keyword of the set, case-insensitive,
optionally followed by a period — up through the next comma (preserving
the rest of the address) or to the end of the string, and in particular
`strip_suite "123 Main St, Suite 400, Tampa" = "123 Main St, Tampa"`. -/
theorem C7_strip_suite_fragments :
    strip_suite "123 Main St, Suite 400, Tampa" = "123 Main St, Tampa" ∧
    ∀ kw ∈ suiteKeywordVariants,
      strip_suite ("123 Main St, " ++ kw ++ " 400, Tampa") =
        "123 Main St, Tampa" ∧
      strip_suite ("123 Main St, " ++ kw ++ " 400") = "123 Main St" := by
  refine ⟨by decide, ?_⟩
  decide

/-- Witness for C7 at the keyword variant `"Ste."`. -/
theorem C7_strip_suite_fragments_witness :
    ("Ste." ∈ suiteKeywordVariants) ∧
    (strip_suite ("123 Main St, " ++ "Ste." ++ " 400, Tampa") =
        "123 Main St, Tampa" ∧
      strip_suite ("123 Main St, " ++ "Ste." ++ " 400") = "123 Main St") :=
  ⟨by decide, C7_strip_suite_fragments.2 "Ste." (by decide)⟩

/-- **C8**: if a required column (`Address` or `State`) is missing from
the (whitespace-trimmed) header, the dedupe run aborts with a fatal
configuration error carrying the list of columns actually present and a
non-empty list of missing columns, and no deduplicated output is
written. -/
theorem C8_dedupe_missing_columns (header : List String) (rows : List CsvRow)
    (h : "Address" ∉ header.map pyStrip ∨ "State" ∉ header.map pyStrip) :
    (∃ missing, missing ≠ [] ∧
      dedupe_main header rows = .fatal (header.map pyStrip) missing) ∧
    ∀ rs, dedupe_main header rows ≠ .written rs := by
  have hmem : ∃ c, c ∈ (["Address", "State"].filter
      (fun c => ¬ c ∈ header.map pyStrip)) := by
    rcases h with h | h
    · exact ⟨"Address", List.mem_filter.mpr ⟨by simp, by simp [h]⟩⟩
    · exact ⟨"State", List.mem_filter.mpr ⟨by simp, by simp [h]⟩⟩
  obtain ⟨c, hc⟩ := hmem
  have hne : (["Address", "State"].filter
      (fun c => ¬ c ∈ header.map pyStrip)) ≠ [] := by
    intro hnil
    rw [hnil] at hc
    cases hc
  refine ⟨⟨_, hne, ?_⟩, ?_⟩
  · simp only [dedupe_main]
    rw [if_pos hne]
  · intro rs hcontra
    simp only [dedupe_main] at hcontra
    rw [if_pos hne] at hcontra
    cases hcontra

/-- Witness for C8 on a header that has `State` (with stray whitespace)
but no `Address` column. -/
theorem C8_dedupe_missing_columns_witness :
    ("Address" ∉ (["Tenant", " State "].map pyStrip) ∨
      "State" ∉ (["Tenant", " State "].map pyStrip)) ∧
    ((∃ missing, missing ≠ [] ∧
        dedupe_main ["Tenant", " State "] [] =
          .fatal ((["Tenant", " State "]).map pyStrip) missing) ∧
      ∀ rs, dedupe_main ["Tenant", " State "] [] ≠ .written rs) :=
  ⟨by decide, C8_dedupe_missing_columns ["Tenant", " State "] [] (by decide)⟩

end IOSMap
